import Mathlib

/-!
Verification of the babeltrace Python bindings' field-class / record model.

Each definition is a shallow embedding of a function of the repository's
Python sources (`bindings/python/bt2/bt2/...` and
`src/bindings/python/bt2/bt2/...`).  Where the Python code delegates to the
native `native_bt` library or to helper modules that are not part of the
Python sources (`bt2.utils`, `bt2.value`), the delegated behaviour is
modelled from the specification; every such definition carries a doc
comment starting with `Modelled from the spec:`.
-/

namespace Babeltrace

/-- The kinds of exceptions the embedded code can raise: Python's built-in
`ValueError`, `TypeError`, `KeyError`, plus `bt2.CreationError` and the
invalid-state error of the freeze machinery. -/
inductive PyError
  | valueError
  | typeError
  | keyError
  | creationError
  | invalidState
  deriving DecidableEq, Repr

/-! ## Events and `event[key]` lookup (`bindings/python/bt2/bt2/event.py`) -/

/-- A populated record region (payload, context, header, ...): a structure
field mapping member names to field values.  Field values are abstracted as
naturals; only identity matters for the lookup claims. -/
abbrev Region := List (String × Nat)

/-- `field[key]` inside one region: first member with the given name. -/
def regionFind (f : Region) (key : String) : Option Nat :=
  (f.find? (fun p => p.1 = key)).map (fun p => p.2)

/-- A packet, as seen by `_Event.__getitem__`: its optional context and
header regions (`packet.context_field`, `packet.header_field`). -/
structure Packet where
  context_field : Option Region
  header_field : Option Region
  deriving DecidableEq, Repr

/-- An event, as seen by `_Event.__getitem__`: its four optional record
regions and its optional owning packet. -/
structure Event where
  payload_field : Option Region
  context_field : Option Region
  stream_event_context_field : Option Region
  header_field : Option Region
  packet : Option Packet
  deriving DecidableEq, Repr

/-- One step of the cascade in `_Event.__getitem__`:
`if field is not None and key in field: return field[key]`. -/
def regionHit (r : Option Region) (key : String) : Option Nat :=
  r.bind (fun f => regionFind f key)

/-- `_Event.__getitem__` (event.py, lines 43-80): searches payload, then
specific context, then stream event (common) context, then header; then, if
the event has an owning packet, the packet's context and header; raises
`KeyError` when no region holds the key (and when there is no packet). -/
def event_getitem (e : Event) (key : String) : Except PyError Nat :=
  match regionHit e.payload_field key with
  | some v => .ok v
  | none =>
  match regionHit e.context_field key with
  | some v => .ok v
  | none =>
  match regionHit e.stream_event_context_field key with
  | some v => .ok v
  | none =>
  match regionHit e.header_field key with
  | some v => .ok v
  | none =>
  match e.packet with
  | none => .error .keyError
  | some pkt =>
    match regionHit pkt.context_field key with
    | some v => .ok v
    | none =>
    match regionHit pkt.header_field key with
    | some v => .ok v
    | none => .error .keyError

/-- The six record regions of an event in the order the specification
prescribes for the lookup. -/
def eventRegions (e : Event) : List (Option Region) :=
  [e.payload_field, e.context_field, e.stream_event_context_field, e.header_field,
   e.packet.bind Packet.context_field, e.packet.bind Packet.header_field]

/-- Claim C1: `event[key]` searches exactly payload, specific context,
stream common context, event header, packet context, packet header, in that
order; it returns the value found in the first region containing the key
(absent regions are skipped) and raises `KeyError` when no region contains
it. -/
theorem event_getitem_search_order (e : Event) (key : String) :
    event_getitem e key =
      match (eventRegions e).findSome? (fun r => regionHit r key) with
      | some v => .ok v
      | none => .error .keyError := by
  unfold event_getitem eventRegions
  cases e.packet with
  | none =>
    simp only [List.findSome?, Option.bind_none, regionHit]
    cases e.payload_field.bind (fun f => regionFind f key) <;>
    cases e.context_field.bind (fun f => regionFind f key) <;>
    cases e.stream_event_context_field.bind (fun f => regionFind f key) <;>
    cases e.header_field.bind (fun f => regionFind f key) <;> rfl
  | some pkt =>
    simp only [List.findSome?, Option.some_bind, regionHit]
    cases e.payload_field.bind (fun f => regionFind f key) <;>
    cases e.context_field.bind (fun f => regionFind f key) <;>
    cases e.stream_event_context_field.bind (fun f => regionFind f key) <;>
    cases e.header_field.bind (fun f => regionFind f key) <;>
    cases pkt.context_field.bind (fun f => regionFind f key) <;>
    cases pkt.header_field.bind (fun f => regionFind f key) <;> rfl

/-! ## Enumeration field classes
(`src/bindings/python/bt2/bt2/field_class.py` and
`bindings/python/bt2/bt2/internal/field_types.py`) -/

/-- One enumeration mapping: a label together with its range set, a list of
closed integer intervals. -/
structure EnumMapping where
  label : String
  ranges : List (Int × Int)
  deriving DecidableEq, Repr

/-- An enumeration field class: the container's signedness plus the ordered
mappings. -/
structure EnumerationFieldClass where
  signed : Bool
  mappings : List EnumMapping
  deriving DecidableEq, Repr

/-- `v` lies in some interval of the range set. -/
def rangesContain (rs : List (Int × Int)) (v : Int) : Bool :=
  rs.any (fun r => decide (r.1 ≤ v) && decide (v ≤ r.2))

/-- `v` lies in the signed (resp. unsigned) 64-bit integer domain. -/
def inIntDomain (signed : Bool) (v : Int) : Bool :=
  if signed then decide (-(2 ^ 63) ≤ v) && decide (v ≤ 2 ^ 63 - 1)
  else decide (0 ≤ v) && decide (v ≤ 2 ^ 64 - 1)

/-- Modelled from the spec: `utils._check_int64` / `utils._check_uint64`
(module `bt2.utils` is not under the Python sources given) — the value must
lie in the signed (resp. unsigned) 64-bit domain, `ValueError` otherwise. -/
def check_int_domain (signed : Bool) (v : Int) : Except PyError Unit :=
  if inIntDomain signed v then .ok () else .error .valueError

/-- Modelled from the spec: the native
`field_class_enumeration_*_get_mapping_labels_for_value` (native library
not under the Python sources given) — returns the label of every mapping
whose range set contains `v`. -/
def get_mapping_labels_for_value (fc : EnumerationFieldClass) (v : Int) : List String :=
  (fc.mappings.filter (fun m => rangesContain m.ranges v)).map EnumMapping.label

/-- `_EnumerationFieldClassConst.__getitem__`: borrow the mapping with the
given label, `KeyError` when absent. -/
def enum_getitem (fc : EnumerationFieldClass) (label : String) : Except PyError EnumMapping :=
  match fc.mappings.find? (fun m => m.label = label) with
  | some m => .ok m
  | none => .error .keyError

/-- `_EnumerationFieldClassConst.mappings_for_value` (field_class.py, lines
246-253): check the value against the container's domain, get the matching
labels from the native library, and return `[self[label] for label in labels]`. -/
def mappings_for_value (fc : EnumerationFieldClass) (v : Int) :
    Except PyError (List EnumMapping) := do
  let _ ← check_int_domain fc.signed v
  (get_mapping_labels_for_value fc v).mapM (enum_getitem fc)

/-- The labels of an enumeration, in mapping order
(`_EnumerationFieldClassConst.__iter__`). -/
def enum_labels (fc : EnumerationFieldClass) : List String :=
  fc.mappings.map EnumMapping.label

/-- With pairwise-distinct labels, looking a member of the list up by its
own label finds exactly it. -/
theorem find_by_label_of_nodup {l : List EnumMapping}
    (hnd : (l.map EnumMapping.label).Nodup) {m : EnumMapping} (hm : m ∈ l) :
    l.find? (fun m' => m'.label = m.label) = some m := by
  induction l with
  | nil => cases hm
  | cons a t ih =>
    simp only [List.map_cons, List.nodup_cons] at hnd
    rcases List.mem_cons.mp hm with rfl | hmt
    · simp [List.find?]
    · have hne : ¬ (a.label = m.label) := by
        intro h
        exact hnd.1 (h ▸ List.mem_map_of_mem EnumMapping.label hmt)
      simp only [List.find?, decide_eq_false hne]
      exact ih hnd.2 hmt

/-- Mapping `enum_getitem` back over the labels of a sublist of mappings
returns exactly those mappings, when labels are pairwise distinct. -/
theorem mapM_getitem_of_sublist (fc : EnumerationFieldClass)
    (hnd : (enum_labels fc).Nodup) (l : List EnumMapping)
    (hl : ∀ m ∈ l, m ∈ fc.mappings) :
    (l.map EnumMapping.label).mapM (enum_getitem fc) = .ok l := by
  induction l with
  | nil => rfl
  | cons a t ih =>
    have ha : enum_getitem fc a.label = .ok a := by
      unfold enum_getitem
      rw [find_by_label_of_nodup hnd (hl a (List.mem_cons_self a t))]
    have ht := ih (fun m hm => hl m (List.mem_cons_of_mem a hm))
    simp only [List.map_cons, List.mapM_cons, ha, ht]
    rfl

/-- Claim C2: for every enumeration field class with pairwise-distinct
labels and every value in the container's 64-bit domain,
`mappings_for_value(v)` returns exactly the list of mappings whose declared
range sets contain `v` — possibly empty, possibly more than one. -/
theorem mappings_for_value_complete (fc : EnumerationFieldClass) (v : Int)
    (hnd : (enum_labels fc).Nodup) (hdom : inIntDomain fc.signed v = true) :
    mappings_for_value fc v =
      .ok (fc.mappings.filter (fun m => rangesContain m.ranges v)) := by
  unfold mappings_for_value check_int_domain get_mapping_labels_for_value
  rw [hdom]
  simp only [if_true]
  have := mapM_getitem_of_sublist fc hnd
    (fc.mappings.filter (fun m => rangesContain m.ranges v))
    (fun m hm => List.mem_of_mem_filter hm)
  simpa [bind, Except.bind] using this

/-- Witness for C2, on the specification's own overlap example: an unsigned
enumeration with mappings `lo -> [0,10]` and `hi -> [5,20]`; value 7 lies
in both ranges, so both mappings are returned. -/
theorem mappings_for_value_complete_witness :
    mappings_for_value ⟨false, [⟨"lo", [(0, 10)]⟩, ⟨"hi", [(5, 20)]⟩]⟩ 7 =
      .ok [⟨"lo", [(0, 10)]⟩, ⟨"hi", [(5, 20)]⟩] := by
  rw [mappings_for_value_complete ⟨false, [⟨"lo", [(0, 10)]⟩, ⟨"hi", [(5, 20)]⟩]⟩ 7
    (by decide) (by decide)]
  rfl

/-! ## `add_mapping` (`_EnumerationFieldClass.add_mapping`, field_class.py,
lines 271-281, and `_EnumerationFieldType.add_mapping`,
internal/field_types.py, lines 329-345) -/

/-- The `ranges` argument of the newer `add_mapping`: either a
`SignedIntegerRangeSet` / `UnsignedIntegerRangeSet` object (tagged with its
signedness) or some other Python object. -/
inductive RangeSetArg
  | rangeSet (signed : Bool) (rs : List (Int × Int))
  | nonRangeSet
  deriving DecidableEq, Repr

/-- `label in self` on an enumeration: lookup by label succeeds. -/
def enum_contains (fc : EnumerationFieldClass) (label : String) : Bool :=
  (fc.mappings.find? (fun m => m.label = label)).isSome

/-- `_EnumerationFieldClass.add_mapping(label, ranges)`: check that `ranges`
is a range set of the container's signedness (`utils._check_type`,
`TypeError` otherwise), raise `ValueError` on a duplicate label, then add
the mapping through the native library (modelled from the spec as appending
it to the mapping sequence). -/
def enum_add_mapping (fc : EnumerationFieldClass) (label : String) (ranges : RangeSetArg) :
    Except PyError EnumerationFieldClass :=
  match ranges with
  | .nonRangeSet => .error .typeError
  | .rangeSet sgn rs =>
    if sgn ≠ fc.signed then .error .typeError
    else if enum_contains fc label then .error .valueError
    else .ok ⟨fc.signed, fc.mappings ++ [⟨label, rs⟩]⟩

/-- The legacy enumeration field type: signedness of its integer container
plus `(name, lower, upper)` mappings. -/
structure EnumerationFieldType where
  is_signed : Bool
  mappings : List (String × Int × Int)
  deriving DecidableEq, Repr

/-- `_EnumerationFieldType.add_mapping(name, lower, upper)`
(internal/field_types.py): `upper` defaults to `lower`; for a signed
container both bounds are checked against the int64 domain, for an unsigned
container against the uint64 domain (`ValueError` when out of domain), then
the mapping is added through the native library (modelled from the spec as
appending it). -/
def ft_enum_add_mapping (ft : EnumerationFieldType) (name : String) (lower : Int)
    (upper : Option Int) : Except PyError EnumerationFieldType := do
  let up := upper.getD lower
  let _ ← check_int_domain ft.is_signed lower
  let _ ← check_int_domain ft.is_signed up
  .ok ⟨ft.is_signed, ft.mappings ++ [(name, lower, up)]⟩

/-- Claim C5: `add_mapping` raises `ValueError` on a duplicate label within
the enumeration, and the bounds of the ranges are validated against the
signed 64-bit domain for a signed container and the unsigned 64-bit domain
for an unsigned container, with `ValueError` on an out-of-domain bound. -/
theorem enum_add_mapping_spec (fc : EnumerationFieldClass) (label : String)
    (rs : List (Int × Int)) (ft : EnumerationFieldType) (name : String)
    (lower : Int) (upper : Option Int) :
    (enum_contains fc label = true →
      enum_add_mapping fc label (.rangeSet fc.signed rs) = .error .valueError) ∧
    (inIntDomain ft.is_signed lower = false →
      ft_enum_add_mapping ft name lower upper = .error .valueError) ∧
    (inIntDomain ft.is_signed (upper.getD lower) = false →
      ft_enum_add_mapping ft name lower upper = .error .valueError) := by
  refine ⟨fun hdup => ?_, fun hlo => ?_, fun hup => ?_⟩
  · simp [enum_add_mapping, hdup]
  · simp [ft_enum_add_mapping, check_int_domain, hlo, bind, Except.bind]
  · unfold ft_enum_add_mapping check_int_domain
    rcases h : inIntDomain ft.is_signed lower <;>
      simp [h, hup, bind, Except.bind]

/-- Witness for C5: adding label "a" again to an unsigned enumeration that
already maps "a" fails with `ValueError`, and adding a mapping with lower
bound -1 to an unsigned legacy enumeration fails with `ValueError`. -/
theorem enum_add_mapping_spec_witness :
    enum_add_mapping ⟨false, [⟨"a", [(0, 1)]⟩]⟩ "a" (.rangeSet false [(2, 3)]) =
        .error .valueError ∧
    ft_enum_add_mapping ⟨false, []⟩ "m" (-1) none = .error .valueError := by
  have h := enum_add_mapping_spec ⟨false, [⟨"a", [(0, 1)]⟩]⟩ "a" [(2, 3)]
    ⟨false, []⟩ "m" (-1) none
  exact ⟨h.1 (by decide), h.2.1 (by decide)⟩

/-! ## Structure field classes (`_StructureFieldClass`, field_class.py,
lines 413-497) -/

/-- A Python value as passed for user attributes.  `vObj` stands for an
object of a type that `bt2.create_value` cannot convert. -/
inductive PyVal
  | vNone
  | vBool (b : Bool)
  | vInt (i : Int)
  | vStr (s : String)
  | vSeq (l : List PyVal)
  | vMap (l : List (String × PyVal))
  | vObj
  deriving Repr

/-- Modelled from the spec: `bt2.create_value` (module `bt2.value` is not
under the Python sources given) — wraps a convertible Python value into the
corresponding value object (map values stay maps, sequences stay arrays,
scalars stay scalars) and raises `TypeError` for an object of an
unsupported type. -/
def create_value : PyVal → Except PyError PyVal
  | .vObj => .error .typeError
  | v => .ok v

/-- The created value is a `MapValue` (`utils._check_type(value, MapValue)`). -/
def val_is_map : PyVal → Bool
  | .vMap _ => true
  | _ => false

/-- The `field_class` argument of `append_member` / `append_option`: either
a genuine field-class object (identity abstracted as a number) or some
other Python object, which `utils._check_type(field_class, _FieldClass)`
rejects with `TypeError`. -/
inductive FCArg
  | fc (id : Nat)
  | nonFC
  deriving DecidableEq, Repr

/-- One structure member: name, field class, user attributes (an empty map
right after the native append). -/
structure StructMember where
  name : String
  field_class : Nat
  user_attributes : PyVal
  deriving Repr

/-- A structure field class: its ordered member sequence. -/
structure StructureFieldClass where
  members : List StructMember
  deriving Repr

/-- `_StructureFieldClassConst.__iter__` (field_class.py, lines 443-447):
yields the member names by index, i.e. in member order. -/
def struct_iter (s : StructureFieldClass) : List String :=
  s.members.map StructMember.name

/-- `name in self` on a structure: borrow-member-by-name succeeds. -/
def struct_contains (s : StructureFieldClass) (name : String) : Bool :=
  (s.members.find? (fun m => m.name = name)).isSome

/-- Modelled from the spec: the native
`field_class_structure_append_member` — appends the member at the end of
the structure's ordered member sequence, with empty user attributes. -/
def native_append_member (s : StructureFieldClass) (name : String) (fcid : Nat) :
    StructureFieldClass :=
  ⟨s.members ++ [⟨name, fcid, .vMap []⟩]⟩

/-- The `_user_attributes` setter of `_StructureFieldClassMember`
(field_class.py, lines 403-410): `create_value` the argument, `TypeError`
unless the result is a `MapValue`, then store it on the member. -/
def member_set_user_attributes (s : StructureFieldClass) (name : String) (ua : PyVal) :
    Except PyError StructureFieldClass := do
  let v ← create_value ua
  if val_is_map v then
    .ok ⟨s.members.map (fun m =>
      if m.name = name then ⟨m.name, m.field_class, v⟩ else m)⟩
  else .error .typeError

/-- `_StructureFieldClass.append_member(name, field_class, user_attributes)`
(field_class.py, lines 470-491), with the mutable structure object made
explicit: the result is the raised exception or `()`, paired with the state
of the structure afterwards.  The steps, in source order: check that
`field_class` is a field class (`TypeError`), check for a duplicate name
(`ValueError`), convert the user attributes now "so that they are valid",
append through the native library, and finally — only after the append —
set the converted user attributes on the new member. -/
def append_member (s : StructureFieldClass) (name : String) (field_class : FCArg)
    (user_attributes : Option PyVal) : Except PyError Unit × StructureFieldClass :=
  match field_class with
  | .nonFC => (.error .typeError, s)
  | .fc fcid =>
    if struct_contains s name then (.error .valueError, s)
    else
      match user_attributes with
      | none => (.ok (), native_append_member s name fcid)
      | some ua =>
        match create_value ua with
        | .error e => (.error e, s)
        | .ok uav =>
          let s1 := native_append_member s name fcid
          match member_set_user_attributes s1 name uav with
          | .error e => (.error e, s1)
          | .ok s2 => (.ok (), s2)

/-- `__iadd__` on a structure field class: append the given
`(name, field_class)` pairs in order, stopping at the first exception. -/
def append_members (s : StructureFieldClass) (l : List (String × Nat)) :
    Except PyError Unit × StructureFieldClass :=
  match l with
  | [] => (.ok (), s)
  | (n, f) :: rest =>
    match append_member s n (.fc f) none with
    | (.ok _, s') => append_members s' rest
    | (e, s') => (e, s')

theorem struct_contains_iff (s : StructureFieldClass) (name : String) :
    struct_contains s name = true ↔ name ∈ struct_iter s := by
  unfold struct_contains struct_iter
  rw [List.find?_isSome]
  constructor
  · rintro ⟨m, hm, hname⟩
    simp only [decide_eq_true_eq] at hname
    exact hname ▸ List.mem_map_of_mem StructMember.name hm
  · intro h
    rcases List.mem_map.mp h with ⟨m, hm, rfl⟩
    exact ⟨m, hm, by simp⟩

theorem struct_iter_native_append (s : StructureFieldClass) (name : String) (fcid : Nat) :
    struct_iter (native_append_member s name fcid) = struct_iter s ++ [name] := by
  simp [struct_iter, native_append_member]

/-- Claim C3: `append_member` raises `ValueError` on a duplicate member
name and `TypeError` when `field_class` is not a field-class object, in
both cases leaving the structure unchanged; appending any sequence of
members with pairwise-fresh names and valid field classes succeeds, and
iterating the structure afterwards yields the member names in exactly the
order they were appended. -/
theorem append_member_spec (s : StructureFieldClass) (name : String) (fcid : Nat)
    (ua : Option PyVal) (l : List (String × Nat)) :
    (struct_contains s name = true →
      append_member s name (.fc fcid) ua = (.error .valueError, s)) ∧
    (append_member s name .nonFC ua = (.error .typeError, s)) ∧
    ((l.map Prod.fst).Nodup → (∀ n ∈ l.map Prod.fst, n ∉ struct_iter s) →
      (append_members s l).1 = .ok () ∧
      struct_iter (append_members s l).2 = struct_iter s ++ l.map Prod.fst) := by
  refine ⟨fun hdup => ?_, rfl, fun hnd hfresh => ?_⟩
  · simp [append_member, hdup]
  · induction l generalizing s with
    | nil => simp [append_members]
    | cons p rest ih =>
      obtain ⟨n, f⟩ := p
      simp only [List.map_cons, List.nodup_cons] at hnd
      have hn : struct_contains s n = false := by
        rcases h : struct_contains s n with _ | _
        · rfl
        · exact absurd ((struct_contains_iff s n).mp h)
            (hfresh n (List.mem_cons_self _ _))
      have hstep : append_member s n (.fc f) none = (.ok (), native_append_member s n f) := by
        simp [append_member, hn]
      have hfresh' : ∀ m ∈ rest.map Prod.fst, m ∉ struct_iter (native_append_member s n f) := by
        intro m hm
        rw [struct_iter_native_append]
        intro hmem
        rcases List.mem_append.mp hmem with h | h
        · exact hfresh m (List.mem_cons_of_mem _ hm) h
        · exact hnd.1 (List.mem_singleton.mp h ▸ hm)
      have := ih (native_append_member s n f) hnd.2 hfresh'
      simp only [append_members, hstep]
      exact ⟨this.1, by rw [this.2, struct_iter_native_append]; simp⟩

/-- Witness for C3: on a structure already holding member "a", appending
"a" again fails with `ValueError` and appending a non-field-class fails
with `TypeError`, both leaving the structure unchanged; appending the fresh
members "b" then "c" succeeds and iteration yields ["a", "b", "c"]. -/
theorem append_member_spec_witness :
    (append_member ⟨[⟨"a", 0, .vMap []⟩]⟩ "a" (.fc 1) none =
      (.error .valueError, ⟨[⟨"a", 0, .vMap []⟩]⟩)) ∧
    (append_member ⟨[⟨"a", 0, .vMap []⟩]⟩ "b" .nonFC none =
      (.error .typeError, ⟨[⟨"a", 0, .vMap []⟩]⟩)) ∧
    ((append_members ⟨[⟨"a", 0, .vMap []⟩]⟩ [("b", 1), ("c", 2)]).1 = .ok () ∧
      struct_iter (append_members ⟨[⟨"a", 0, .vMap []⟩]⟩ [("b", 1), ("c", 2)]).2 =
        ["a"] ++ ["b", "c"]) := by
  have h := append_member_spec ⟨[⟨"a", 0, .vMap []⟩]⟩ "a" 1 none [("b", 1), ("c", 2)]
  refine ⟨h.1 (by simp [struct_contains]), ?_, h.2.2 (by decide) (by decide)⟩
  exact append_member_spec ⟨[⟨"a", 0, .vMap []⟩]⟩ "b" 1 none [] |>.2.1

/-! ## Atomicity of `append_member` on failure (claim C10) -/

/-- Counterexample to claim C10: on an empty structure,
`append_member("m", fc, user_attributes=[])` converts the list to a valid
(array) value before the append, appends the member, and only then — in the
member's user-attributes setter — raises `TypeError` because the value is
not a map; the failed call leaves the structure with one member, not
unchanged. -/
theorem append_member_nonmap_attrs_mutates :
    (append_member ⟨[]⟩ "m" (.fc 0) (some (.vSeq []))).1 = .error .typeError ∧
    ((append_member ⟨[]⟩ "m" (.fc 0) (some (.vSeq []))).2.members.length = 1 ∧
      (⟨[]⟩ : StructureFieldClass).members.length = 0) :=
  ⟨rfl, rfl, rfl⟩

/-- `create_value` either wraps the value unchanged or — only for an
object of an unsupported type — raises `TypeError`. -/
theorem create_value_cases (v : PyVal) :
    create_value v = .ok v ∨ (v = .vObj ∧ create_value v = .error .typeError) := by
  cases v <;> simp [create_value]

/-- Claim C10 as amended: the name, field-class, duplicate-name and
convertibility validations are all performed before the member is
appended, so whenever `append_member` raises the structure is left
unchanged — in particular an unconvertible `user_attributes` raises
`TypeError` before the append — except exactly when a supplied
`user_attributes` converts to a valid value that is not a map: then the
member is appended first, and the `TypeError` from setting the member's
user attributes leaves the structure with the new member. -/
theorem append_member_atomic_amended (s : StructureFieldClass) (name : String)
    (field_class : FCArg) (ua : Option PyVal) :
    ∀ e, (append_member s name field_class ua).1 = .error e →
      (append_member s name field_class ua).2 = s ∨
      (e = .typeError ∧ ∃ fcid v, field_class = .fc fcid ∧ ua = some v ∧
        create_value v = .ok v ∧ val_is_map v = false ∧
        (append_member s name field_class ua).2 = native_append_member s name fcid) := by
  intro e he
  cases field_class with
  | nonFC => exact Or.inl rfl
  | fc fcid =>
    by_cases hdup : struct_contains s name = true
    · left
      simp [append_member, hdup]
    · rw [Bool.not_eq_true] at hdup
      cases ua with
      | none => simp [append_member, hdup] at he
      | some v =>
        rcases create_value_cases v with hconv | ⟨rfl, herr⟩
        · by_cases hmap : val_is_map v = true
          · simp [append_member, hdup, hconv, member_set_user_attributes,
              bind, Except.bind, hmap] at he
          · rw [Bool.not_eq_true] at hmap
            have hres : append_member s name (.fc fcid) (some v) =
                (.error .typeError, native_append_member s name fcid) := by
              simp [append_member, hdup, hconv, member_set_user_attributes,
                bind, Except.bind, hmap]
            rw [hres] at he ⊢
            simp only [Except.error.injEq] at he
            exact Or.inr ⟨he.symm, fcid, v, rfl, rfl, hconv, hmap, rfl⟩
        · left
          simp [append_member, hdup, herr]

/-- Witness for the amended C10, on the unconvertible-attributes case: on
an empty structure, `append_member` with an unconvertible
`user_attributes` object raises `TypeError` from the pre-append
`create_value`, and the conclusion holds at that input (here through its
left branch: the structure is left unchanged). -/
theorem append_member_atomic_amended_witness :
    (append_member ⟨[]⟩ "m" (.fc 0) (some .vObj)).2 = (⟨[]⟩ : StructureFieldClass) ∨
    (PyError.typeError = .typeError ∧ ∃ fcid v, FCArg.fc 0 = .fc fcid ∧
      (some PyVal.vObj : Option PyVal) = some v ∧
      create_value v = .ok v ∧ val_is_map v = false ∧
      (append_member ⟨[]⟩ "m" (.fc 0) (some .vObj)).2 = native_append_member ⟨[]⟩ "m" fcid) :=
  append_member_atomic_amended ⟨[]⟩ "m" (.fc 0) (some .vObj) .typeError rfl

/-! ## Integer field classes (`_IntegerFieldClass`, field_class.py, lines
116-136) -/

/-- An integer field class: its stored field value range (bit size). -/
structure IntegerFieldClass where
  field_value_range : Nat
  deriving DecidableEq, Repr

/-- The `_field_value_range` setter of `_IntegerFieldClass` (field_class.py,
lines 131-136): `ValueError` when the size is outside [1, 64], otherwise
set the range through the native library (modelled from the spec as storing
the size, which the `field_value_range` getter reads back). -/
def set_field_value_range (_fc : IntegerFieldClass) (size : Int) :
    Except PyError IntegerFieldClass :=
  if size < 1 ∨ size > 64 then .error .valueError
  else .ok ⟨size.toNat⟩

/-- Claim C4: setting an integer field class's field value range to `n`
raises `ValueError` iff `n` is outside [1, 64]; for `n` in [1, 64] the
operation succeeds and the stored range equals `n`. -/
theorem field_value_range_spec (fc : IntegerFieldClass) (size : Int) :
    (set_field_value_range fc size = .error .valueError ↔ (size < 1 ∨ 64 < size)) ∧
    (1 ≤ size → size ≤ 64 →
      ∃ fc', set_field_value_range fc size = .ok fc' ∧
        (fc'.field_value_range : Int) = size) := by
  constructor
  · unfold set_field_value_range
    by_cases h : size < 1 ∨ size > 64
    · simp [h]
    · simp only [if_neg h]
      simp only [gt_iff_lt] at h
      simp [h]
  · intro h1 h64
    refine ⟨⟨size.toNat⟩, ?_, ?_⟩
    · unfold set_field_value_range
      rw [if_neg]
      push_neg
      exact ⟨h1, by simpa [gt_iff_lt] using h64⟩
    · simpa using Int.toNat_of_nonneg (le_trans (by norm_num) h1)

/-- Witness for C4: setting the range of an 8-bit integer field class to 32
succeeds and stores 32. -/
theorem field_value_range_spec_witness :
    ∃ fc', set_field_value_range ⟨8⟩ 32 = .ok fc' ∧
      (fc'.field_value_range : Int) = 32 :=
  (field_value_range_spec ⟨8⟩ 32).2 (by decide) (by decide)

/-! ## Selector-guarded variant field classes
(`_VariantFieldClassWithSelector.append_option`, field_class.py, lines
851-876) -/

/-- One option of a selector-guarded variant: name, field class and the
range set guarding the branch. -/
structure VariantOption where
  name : String
  field_class : Nat
  ranges : List (Int × Int)
  deriving DecidableEq, Repr

/-- A selector-guarded variant field class: its ordered option sequence. -/
structure VariantFieldClass where
  options : List VariantOption
  deriving DecidableEq, Repr

/-- `name in self` on a variant: borrow-option-by-name succeeds. -/
def variant_contains (v : VariantFieldClass) (name : String) : Bool :=
  (v.options.find? (fun o => o.name = name)).isSome

/-- `_VariantFieldClassWithSelector.append_option(name, field_class,
ranges)` with no user attributes, in source order: check that `field_class`
is a field class (`TypeError`), raise `ValueError` on a duplicate option
name, raise `ValueError` on an empty range set, then append through the
native library (modelled from the spec as appending the option; the source
marks overlap checking with the other options' range sets as a TODO and
performs none). -/
def variant_append_option (v : VariantFieldClass) (name : String)
    (field_class : FCArg) (ranges : List (Int × Int)) :
    Except PyError VariantFieldClass :=
  match field_class with
  | .nonFC => .error .typeError
  | .fc fcid =>
    if variant_contains v name then .error .valueError
    else if ranges.length = 0 then .error .valueError
    else .ok ⟨v.options ++ [⟨name, fcid, ranges⟩]⟩

/-- Claim C6: `append_option` raises `ValueError` when the range set is
empty and when an option with the same name already exists; with a fresh
name and a non-empty range set it succeeds — in particular overlap with the
other options' range sets is not rejected. -/
theorem variant_append_option_spec (v : VariantFieldClass) (name : String)
    (fcid : Nat) (ranges : List (Int × Int)) :
    (variant_append_option v name (.fc fcid) [] = .error .valueError) ∧
    (variant_contains v name = true →
      variant_append_option v name (.fc fcid) ranges = .error .valueError) ∧
    (variant_contains v name = false → ranges ≠ [] →
      variant_append_option v name (.fc fcid) ranges =
        .ok ⟨v.options ++ [⟨name, fcid, ranges⟩]⟩) := by
  refine ⟨?_, fun hdup => ?_, fun hfresh hne => ?_⟩
  · unfold variant_append_option
    by_cases hdup : variant_contains v name = true <;> simp [hdup]
  · simp [variant_append_option, hdup]
  · simp [variant_append_option, hfresh, List.length_eq_zero, hne]

/-- Witness for C6: on a variant with option "x" guarding [0,10], appending
"x" again fails with `ValueError`, and appending a fresh "y" whose range
[5,20] overlaps "x"'s succeeds. -/
theorem variant_append_option_spec_witness :
    (variant_append_option ⟨[⟨"x", 0, [(0, 10)]⟩]⟩ "x" (.fc 1) [(2, 3)] =
      .error .valueError) ∧
    (variant_append_option ⟨[⟨"x", 0, [(0, 10)]⟩]⟩ "y" (.fc 1) [(5, 20)] =
      .ok ⟨[⟨"x", 0, [(0, 10)]⟩, ⟨"y", 1, [(5, 20)]⟩]⟩) :=
  ⟨(variant_append_option_spec ⟨[⟨"x", 0, [(0, 10)]⟩]⟩ "x" 1 [(2, 3)]).2.1 (by decide),
   (variant_append_option_spec ⟨[⟨"x", 0, [(0, 10)]⟩]⟩ "y" 1 [(5, 20)]).2.2
     (by decide) (by decide)⟩

/-! ## Static array field types (`_ArrayFieldType`,
internal/field_types.py, lines 512-532) -/

/-- A (static) array field type: its stored fixed length. -/
structure ArrayFieldType where
  length : Nat
  deriving DecidableEq, Repr

/-- Modelled from the spec: the native `field_type_array_create` — a
non-positive fixed length is invalid, so the native call fails (returns a
null pointer) on length 0 and otherwise creates the array field type with
the given length (read back by the `length` getter). -/
def field_type_array_create (len : Nat) : Option ArrayFieldType :=
  if len = 0 then none else some ⟨len⟩

/-- `_ArrayFieldType.__init__(element_field_type, length)`
(internal/field_types.py, lines 515-520): check that the element is a field
type (`TypeError`), check `length` against the unsigned 64-bit domain
(`utils._check_uint64`, `ValueError` outside it), call the native create,
and raise `bt2.CreationError` when the native create failed
(`_check_create_status`). -/
def array_field_type_init (element_field_type : FCArg) (length : Int) :
    Except PyError ArrayFieldType :=
  match element_field_type with
  | .nonFC => .error .typeError
  | .fc _ => do
    let _ ← check_int_domain false length
    match field_type_array_create length.toNat with
    | none => .error .creationError
    | some ft => .ok ft

/-- Counterexample to claim C7: constructing a static array field type of
length 0 raises `bt2.CreationError` (from `_check_create_status`), not the
`ValueError` the claim requires — `utils._check_uint64(0)` passes, so no
`ValueError` can be raised for length 0. -/
theorem static_array_zero_length_creation_error :
    array_field_type_init (.fc 0) 0 = .error .creationError ∧
    array_field_type_init (.fc 0) 0 ≠ .error .valueError := by
  refine ⟨rfl, fun h => ?_⟩
  rw [show array_field_type_init (.fc 0) 0 = .error .creationError from rfl] at h
  simp at h

/-- Claim C7 as amended: constructing a static array field type raises
`ValueError` for a negative length (or any length outside the unsigned
64-bit domain), raises `CreationError` for length 0, and succeeds for every
positive length in the unsigned 64-bit domain, with the stored length equal
to the given length. -/
theorem array_field_type_init_spec (eid : Nat) (length : Int) :
    (inIntDomain false length = false →
      array_field_type_init (.fc eid) length = .error .valueError) ∧
    (array_field_type_init (.fc eid) 0 = .error .creationError) ∧
    (0 < length → length ≤ 2 ^ 64 - 1 →
      array_field_type_init (.fc eid) length = .ok ⟨length.toNat⟩ ∧
        ((⟨length.toNat⟩ : ArrayFieldType).length : Int) = length) := by
  refine ⟨fun hdom => ?_, rfl, fun hpos hle => ?_⟩
  · simp [array_field_type_init, check_int_domain, hdom, bind, Except.bind]
  · have hdom : inIntDomain false length = true := by
      simp [inIntDomain]
      exact ⟨le_of_lt hpos, hle⟩
    have hne : length.toNat ≠ 0 := by
      simpa [Int.toNat_eq_zero, not_le] using hpos
    constructor
    · simp [array_field_type_init, check_int_domain, hdom, bind, Except.bind,
        field_type_array_create, hne]
    · simpa using Int.toNat_of_nonneg (le_of_lt hpos)

/-- Witness for the amended C7: length -1 raises `ValueError`, and length 3
succeeds with stored length 3. -/
theorem array_field_type_init_spec_witness :
    (array_field_type_init (.fc 0) (-1) = .error .valueError) ∧
    (array_field_type_init (.fc 0) 3 = .ok ⟨(3 : Int).toNat⟩) :=
  ⟨(array_field_type_init_spec 0 (-1)).1 (by decide),
   ((array_field_type_init_spec 0 3).2.2 (by decide) (by decide)).1⟩

/-! ## `Trace.create_stream_class` (`bindings/python/bt2/bt2/trace.py`,
lines 211-219 and 245-252) -/

/-- A trace, as far as stream-class creation is concerned: whether it
assigns stream-class ids automatically, the ids of its stream classes, and
the next automatic id. -/
structure TraceSt where
  assign_automatic_stream_class_id : Bool
  stream_class_ids : List Nat
  next_auto_id : Nat
  deriving DecidableEq, Repr

/-- Modelled from the spec: the native `stream_class_create` — creates a
stream class with the next automatically assigned id. -/
def stream_class_create (t : TraceSt) : TraceSt × Nat :=
  (⟨t.assign_automatic_stream_class_id, t.stream_class_ids ++ [t.next_auto_id],
    t.next_auto_id + 1⟩, t.next_auto_id)

/-- Modelled from the spec: the native `stream_class_create_with_id` — the
id must be unique within the trace, `ValueError` on a duplicate. -/
def stream_class_create_with_id (t : TraceSt) (id : Nat) :
    Except PyError (TraceSt × Nat) :=
  if t.stream_class_ids.contains id then .error .valueError
  else .ok (⟨t.assign_automatic_stream_class_id, t.stream_class_ids ++ [id],
    t.next_auto_id⟩, id)

/-- `Trace.create_stream_class(id=None)` (trace.py, lines 211-219): when
the trace assigns stream-class ids automatically, call the native automatic
create — the `id` argument is never consulted; otherwise a missing id
raises `bt2.CreationError` and a given id goes to the native
create-with-id. -/
def create_stream_class (t : TraceSt) (id : Option Nat) :
    Except PyError (TraceSt × Nat) :=
  if t.assign_automatic_stream_class_id then .ok (stream_class_create t)
  else
    match id with
    | none => .error .creationError
    | some i => stream_class_create_with_id t i

/-- Counterexample to claim C8: on a trace that assigns stream-class ids
automatically, `create_stream_class(id=5)` does not raise `ValueError` — it
succeeds, silently ignoring the explicit id and assigning the automatic id
0. -/
theorem create_stream_class_auto_id_ignored :
    create_stream_class ⟨true, [], 0⟩ (some 5) = .ok (⟨true, [0], 1⟩, 0) ∧
    create_stream_class ⟨true, [], 0⟩ (some 5) ≠ .error .valueError := by
  refine ⟨rfl, fun h => ?_⟩
  rw [show create_stream_class ⟨true, [], 0⟩ (some 5) =
    .ok (⟨true, [0], 1⟩, 0) from rfl] at h
  simp at h

/-- Claim C8 as amended: when the trace assigns stream-class ids
automatically, an explicitly supplied id is silently ignored — the call
behaves exactly as with no id and succeeds; when the trace does not assign
ids automatically, a missing id raises `CreationError` and a duplicate id
(one already used by a stream class of the trace) raises `ValueError`. -/
theorem create_stream_class_spec (t : TraceSt) (i : Nat) :
    (t.assign_automatic_stream_class_id = true →
      ∀ id, create_stream_class t id = .ok (stream_class_create t)) ∧
    (t.assign_automatic_stream_class_id = false →
      create_stream_class t none = .error .creationError) ∧
    (t.assign_automatic_stream_class_id = false →
      t.stream_class_ids.contains i = true →
      create_stream_class t (some i) = .error .valueError) := by
  refine ⟨fun hauto id => ?_, fun hman => ?_, fun hman hdup => ?_⟩
  · simp [create_stream_class, hauto]
  · simp [create_stream_class, hman]
  · have hmem : i ∈ t.stream_class_ids := by simpa using hdup
    simp [create_stream_class, hman, stream_class_create_with_id, hdup, hmem]

/-- Witness for the amended C8: an automatic-id trace ignores the explicit
id 7, and a manual-id trace already using id 3 rejects 3 with
`ValueError`. -/
theorem create_stream_class_spec_witness :
    (create_stream_class ⟨true, [], 0⟩ (some 7) =
      .ok (stream_class_create ⟨true, [], 0⟩)) ∧
    (create_stream_class ⟨false, [3], 0⟩ (some 3) = .error .valueError) :=
  ⟨(create_stream_class_spec ⟨true, [], 0⟩ 0).1 rfl (some 7),
   (create_stream_class_spec ⟨false, [3], 0⟩ 3).2.2 rfl (by decide)⟩

/-! ## Packet freezing on `Stream.create_packet`
(`bindings/python/bt2/bt2/stream.py`, lines 31-40) -/

/-- A stream, as far as packet freezing is concerned: one frozen flag per
packet, in creation order.  `false` is an open packet, `true` a frozen
one. -/
structure StreamSt where
  packets : List Bool
  deriving DecidableEq, Repr

/-- Modelled from the spec: the native `packet_create` called by
`_Stream.create_packet` — creating a new packet implicitly freezes the
previously open packet of the stream; the new packet starts open. -/
def stream_create_packet (s : StreamSt) : StreamSt :=
  ⟨s.packets.map (fun _ => true) ++ [false]⟩

/-- Packet `n` of the stream is frozen (a packet that does not exist cannot
be mutated either). -/
def packet_frozen (s : StreamSt) (n : Nat) : Bool :=
  s.packets.getD n true

/-- Modelled from the spec: any field-mutation attempt on a frozen packet
fails with the invalid-state error. -/
def packet_try_mutate (s : StreamSt) (n : Nat) : Except PyError StreamSt :=
  if packet_frozen s n then .error .invalidState else .ok s

/-- `k` successive `create_packet` calls. -/
def create_packets : Nat → StreamSt → StreamSt
  | 0, s => s
  | k + 1, s => create_packets k (stream_create_packet s)

theorem packet_frozen_after_create (s : StreamSt) (n : Nat)
    (hn : n < s.packets.length) :
    packet_frozen (stream_create_packet s) n = true := by
  unfold packet_frozen stream_create_packet
  have hlt : n < (s.packets.map (fun _ => true)).length := by simpa using hn
  rw [List.getD_eq_getElem?_getD, List.getElem?_append, if_pos hlt]
  simp [List.getElem?_eq_getElem hlt]

theorem create_packet_length (s : StreamSt) :
    (stream_create_packet s).packets.length = s.packets.length + 1 := by
  simp [stream_create_packet]

theorem packet_frozen_stays (s : StreamSt) (n : Nat)
    (hn : n < s.packets.length) (k : Nat) :
    packet_frozen (create_packets k (stream_create_packet s)) n = true := by
  induction k generalizing s with
  | zero => exact packet_frozen_after_create s n hn
  | succ k ih =>
    have hn' : n < (stream_create_packet s).packets.length := by
      rw [create_packet_length]; omega
    exact ih (stream_create_packet s) hn'

/-- Claim C9: creating a new packet freezes every packet the stream already
had — in particular the previously open one — and this persists through any
number of further `create_packet` calls: every field-mutation attempt on
such a packet fails with the invalid-state error, and a frozen packet never
returns to the open state. -/
theorem packet_freeze_spec (s : StreamSt) (n k : Nat)
    (hn : n < s.packets.length) :
    (packet_try_mutate (create_packets (k + 1) s) n = .error .invalidState) ∧
    (packet_frozen s n = true → ∀ j, packet_frozen (create_packets j s) n = true) := by
  constructor
  · have : packet_frozen (create_packets (k + 1) s) n = true := by
      simpa [create_packets] using packet_frozen_stays s n hn k
    simp [packet_try_mutate, this]
  · intro hfr j
    cases j with
    | zero => exact hfr
    | succ j => simpa [create_packets] using packet_frozen_stays s n hn j

/-- Witness for C9: on a stream holding one open packet, creating a second
packet (then a third) makes mutation of packet 0 fail with the
invalid-state error. -/
theorem packet_freeze_spec_witness :
    packet_try_mutate (create_packets 2 ⟨[false]⟩) 0 = .error .invalidState :=
  (packet_freeze_spec ⟨[false]⟩ 0 1 (by decide)).1

end Babeltrace
